import Mathlib

/-!
Shallow embedding of the Snake-Server game core (src/game.rs, src/snake.rs,
src/main.rs) in Lean 4, together with theorems checking the natural-language
specification against the code.

Modelling conventions:
* Rust `u16` coordinates are Nat values taken modulo `M = 2^16`; the wrapping
  arithmetic of release-mode Rust is written out explicitly (`add16`, `sub16`).
* `Vec<T>` becomes `List T`; `Vec::remove(i)` becomes `List.eraseIdx`
  (the Rust call panics out of bounds, `eraseIdx` is the identity there —
  all claims below only exercise in-bounds indices).
* `last().unwrap()` becomes `List.getLastD` with a dummy default; the source
  panics on an empty body, and every theorem that depends on the head carries
  a nonempty-body hypothesis.
* The random number generator of `create_food` (`rand::thread_rng`) is an
  oracle: an explicit list of candidate points consumed left to right; the
  rejection-sampling `while` loop returns the first candidate that does not
  overlap a snake, and `none` models non-termination (candidate list
  exhausted).
* mpsc channel endpoints are abstract tokens (type parameters); the outcome
  of a `send`/`recv`/`try_recv` call on a token is supplied by an oracle
  function, and a Rust `panic!` is modelled as `Option.none`.
-/

/-- Modulus of Rust `u16` arithmetic. -/
def M : Nat := 65536

/-- Wrapping u16 addition. -/
def add16 (a b : Nat) : Nat := (a + b) % M

/-- Wrapping u16 subtraction (for representatives below `M`). -/
def sub16 (a b : Nat) : Nat := (a + (M - b % M)) % M

/-- src/game.rs `Point`: a grid coordinate with `u16` components. -/
structure Point where
  x : Nat
  y : Nat
deriving DecidableEq, Repr

/-- Dummy point standing for the value a panicking `unwrap()` never returns. -/
def dummyP : Point := { x := 0, y := 0 }

/-- src/snake.rs `Direction`. -/
inductive Direction where
  | Up
  | Down
  | Left
  | Right
deriving DecidableEq, Repr

/-- src/game.rs `Collision`. -/
inductive Collision where
  | None
  | Food
  | BorderOrSnake
deriving DecidableEq, Repr

/-- src/game.rs `GameState`. -/
inductive GameState where
  | Ready
  | Playing
  | Lost
deriving DecidableEq, Repr

/-- src/snake.rs `Snake`: body (head is the last element) and heading. -/
structure Snake where
  body : List Point
  direction : Direction
deriving DecidableEq, Repr

/-- Dummy snake used as the `getD` default for out-of-bounds indexing
(the source indexing `self.snakes[id]` panics there instead). -/
def dummyS : Snake := { body := [], direction := Direction.Right }

/-- src/snake.rs `Snake::init`: three horizontal segments around the middle
column, row `height / (2*nb) * (id+1)`, heading Right.  The x coordinates are
computed in `u16` after the cast `width as u16`; the y expression is `usize`
arithmetic cast to `u16` at the end (Rust panics when `nb = 0`; Lean's
`Nat` division by zero yields 0 there — no claim exercises `nb = 0`). -/
def Snake.init (id nb width height : Nat) : Snake :=
  { body := [ { x := sub16 (width % M / 2) 1, y := height / (2 * nb) * (id + 1) % M },
              { x := width % M / 2, y := height / (2 * nb) * (id + 1) % M },
              { x := add16 (width % M / 2) 1, y := height / (2 * nb) * (id + 1) % M } ],
    direction := Direction.Right }

/-- src/snake.rs `Snake::_move`: drop the first body segment (the tail),
then append a new head one cell from the previous head in the current
direction, with wrapping `u16` arithmetic. -/
def Snake._move (s : Snake) : Snake :=
  let body := s.body.drop 1
  let p := body.getLastD dummyP
  let point : Point :=
    match s.direction with
    | Direction.Up => { x := p.x, y := sub16 p.y 1 }
    | Direction.Down => { x := p.x, y := add16 p.y 1 }
    | Direction.Right => { x := add16 p.x 1, y := p.y }
    | Direction.Left => { x := sub16 p.x 1, y := p.y }
  { s with body := body ++ [point] }

/-- src/snake.rs `Snake::_grow`: push the food point onto the body. -/
def Snake._grow (s : Snake) (food : Point) : Snake :=
  { s with body := s.body ++ [food] }

/-- src/snake.rs `Snake::_do_overlap`: does any body segment equal `point`? -/
def Snake._do_overlap (s : Snake) (point : Point) : Bool :=
  s.body.any (fun p => p.x == point.x && p.y == point.y)

/-- src/snake.rs `Snake::_check_border_collisions`: the head collides with
the border iff a coordinate equals 1 or equals `width as u16` /
`height as u16`. -/
def Snake._check_border_collisions (s : Snake) (width height : Nat) : Bool :=
  let p := s.body.getLastD dummyP
  (p.x == 1 || p.x == width % M) || (p.y == 1 || p.y == height % M)

/-- src/snake.rs `Snake::_check_food_collision`: head equals the food point. -/
def Snake._check_food_collision (s : Snake) (point : Point) : Bool :=
  let p := s.body.getLastD dummyP
  p.x == point.x && p.y == point.y

/-- src/game.rs board constants `WIDTH`, `HEIGHT`. -/
def WIDTH : Nat := 20

/-- src/game.rs board constant. -/
def HEIGHT : Nat := 20

/-- src/game.rs `Game`. -/
structure Game where
  snakes : List Snake
  food : Point
  width : Nat
  height : Nat
  states : List GameState
deriving DecidableEq, Repr

/-- src/game.rs `Game::do_overlap`: does `point` overlap any snake body? -/
def Game.do_overlap (g : Game) (point : Point) : Bool :=
  g.snakes.any (fun s => s._do_overlap point)

/-- src/game.rs `Game::create_food`: rejection sampling over the random
candidate stream; the first candidate overlapping no snake becomes the food.
`none` models the `while` loop running out of (modelled) random draws. -/
def Game.create_food (g : Game) : List Point → Option (Game × List Point)
  | [] => none
  | p :: rest => if g.do_overlap p then g.create_food rest else some ({ g with food := p }, rest)

/-- src/game.rs `Game::new`: one snake and one `Ready` state per player on a
20×20 board, then `create_food`. -/
def Game.new (nb : Nat) (rng : List Point) : Option (Game × List Point) :=
  let snakes := (List.range nb).map (fun id => Snake.init id nb WIDTH HEIGHT)
  let states := (List.range nb).map (fun _ => GameState.Ready)
  let g : Game := { snakes := snakes, food := { x := 0, y := 0 },
                    width := WIDTH, height := HEIGHT, states := states }
  g.create_food rng

/-- src/game.rs `Game::check_snake_collisions` for the snake at index `id`.
The source receives `&self.snakes[id]` and skips the one body cell whose
*address* equals the head's; since the reference aliases `self.snakes[id]`,
pointer identity is exactly position identity: snake `id`, last segment. -/
def Game.check_snake_collisions (g : Game) (id : Nat) : Bool :=
  let snake := g.snakes.getD id dummyS
  let last := snake.body.getLastD dummyP
  (List.range g.snakes.length).any (fun j =>
    let s := g.snakes.getD j dummyS
    (List.range s.body.length).any (fun k =>
      (!(j == id && k == snake.body.length - 1)) &&
      ((s.body.getD k dummyP).x == last.x && (s.body.getD k dummyP).y == last.y)))

/-- src/game.rs `Game::check_collisions` for the snake at index `id`:
border or snake-body overlap first, then food, else none. -/
def Game.check_collisions (g : Game) (id : Nat) : Collision :=
  let snake := g.snakes.getD id dummyS
  if snake._check_border_collisions g.width g.height || g.check_snake_collisions id then
    Collision.BorderOrSnake
  else if snake._check_food_collision g.food then
    Collision.Food
  else
    Collision.None

/-- src/game.rs `Game::move_snakes`: move every snake (no state check). -/
def Game.move_snakes (g : Game) : Game :=
  { g with snakes := g.snakes.map Snake._move }

/-- src/game.rs `Game::snakes_to_vec`. -/
def Game.snakes_to_vec (g : Game) : List (List Point) :=
  g.snakes.map Snake.body

/-- Body of the per-snake loop of src/game.rs `Game::play_turn`
(lines 131-141): on `BorderOrSnake` mark the player `Lost`; on `Food`
restore the pre-move body, `_grow` it by the current food and relocate the
food; otherwise do nothing. -/
def Game.play_turn_step (old : List (List Point)) (st : Game × List Point) (id : Nat) :
    Option (Game × List Point) :=
  let g := st.1
  match g.check_collisions id with
  | Collision.BorderOrSnake => some ({ g with states := g.states.set id GameState.Lost }, st.2)
  | Collision.Food =>
    let s := g.snakes.getD id dummyS
    let s1 : Snake := { s with body := old.getD id [] }
    let s2 := s1._grow g.food
    let g1 : Game := { g with snakes := g.snakes.set id s2 }
    g1.create_food st.2
  | Collision.None => some st

/-- src/game.rs `Game::play_turn`: snapshot the bodies, move every snake,
then run the collision loop over all indices. -/
def Game.play_turn (g : Game) (rng : List Point) : Option (Game × List Point) :=
  let old := g.snakes_to_vec
  let g1 := g.move_snakes
  (List.range g1.snakes.length).foldlM (Game.play_turn_step old) (g1, rng)

/-- src/game.rs `Game::set_states`. -/
def Game.set_states (g : Game) (state : GameState) : Game :=
  { g with states := g.states.map (fun _ => state) }

/-- src/main.rs `ClientMessage`: what a session worker sends the
Coordinator. -/
inductive ClientMessage where
  | Direction (d : Direction)
  | StartGame
deriving DecidableEq, Repr

/-- src/main.rs `Channels`: the two per-player channel endpoint collections
held by the Coordinator, index-aligned with `Game.snakes`/`Game.states`.
Endpoints are abstract tokens of types `σ` (senders) and `ρ` (receivers). -/
structure Channels (σ ρ : Type) where
  size : Nat
  senders : List σ
  receivers : List ρ
deriving DecidableEq, Repr

/-- Inner `for j in 0..ids.len()` loop of src/main.rs `remove_players`:
decrement every entry other than position `i` whose value exceeds `a`
(`a` is `ids[i]`, constant during the loop).  `j` is the loop counter. -/
def rp_dec (i a : Nat) : Nat → List Nat → List Nat
  | _, [] => []
  | j, v :: rest => (if j ≠ i ∧ a < v then v - 1 else v) :: rp_dec i a (j + 1) rest

/-- Outer `for i in 0..ids.len()` loop of src/main.rs `remove_players`.
`rp_dec` keeps `ids.len()` constant, so running the loop with fuel
`ids.length` (structural recursion) is exactly the source iteration. -/
def remove_players_go (i : Nat) (ids : List Nat) (ch : Channels σ ρ) (g : Game) :
    Nat → Channels σ ρ × Game
  | 0 => (ch, g)
  | fuel + 1 =>
    if h : i < ids.length then
      let id := ids.get ⟨i, h⟩
      let ch1 : Channels σ ρ := { size := ch.size - 1, senders := ch.senders.eraseIdx id,
                                  receivers := ch.receivers.eraseIdx id }
      let g1 : Game := { g with states := g.states.eraseIdx id, snakes := g.snakes.eraseIdx id }
      remove_players_go (i + 1) (rp_dec i id 0 ids) ch1 g1 fuel
    else (ch, g)

/-- src/main.rs `remove_players`: remove every slot listed in `ids` from the
senders, receivers, states and snakes (decrementing `size`), renumbering the
still-pending indices in place. -/
def remove_players (ids : List Nat) (ch : Channels σ ρ) (g : Game) : Channels σ ρ × Game :=
  remove_players_go 0 ids ch g ids.length

/-- Index collection of the src/main.rs `send_all` loop: the positions
(counted from `id`) whose send attempt failed (`Ok` adds nothing, `Err`
pushes the index). -/
def collect_fails : Nat → List Bool → List Nat
  | _, [] => []
  | id, true :: rest => collect_fails (id + 1) rest
  | id, false :: rest => id :: collect_fails (id + 1) rest

/-- src/main.rs `send_all`: try a send on every sender in index order, then
`remove_players` on the failing indices.  `sendOk` is the oracle deciding
whether the send on a given endpoint succeeds (the event payload does not
influence control flow). -/
def send_all (sendOk : σ → Bool) (ch : Channels σ ρ) (g : Game) : Channels σ ρ × Game :=
  remove_players (collect_fails 0 (ch.senders.map sendOk)) ch g

/-- Outcome of a blocking `recv()` on a receiver endpoint. -/
inductive RecvOutcome where
  | ok (m : ClientMessage)
  | err
deriving DecidableEq, Repr

/-- Gather loop of src/main.rs `receive_all`: walk the receivers in index
order; a received `Direction` is appended to the messages, a closed channel
appends the index to the removal list, and any other message is the
`panic!("Wrong ClientMessage type received")`, modelled as `none`. -/
def gather_go (recvOut : ρ → RecvOutcome) : Nat → List ρ → Option (List Direction × List Nat)
  | _, [] => some ([], [])
  | id, r :: rest =>
    match recvOut r with
    | RecvOutcome.ok (ClientMessage.Direction d) =>
      match gather_go recvOut (id + 1) rest with
      | some (ms, ids) => some (d :: ms, ids)
      | none => none
    | RecvOutcome.ok ClientMessage.StartGame => none
    | RecvOutcome.err =>
      match gather_go recvOut (id + 1) rest with
      | some (ms, ids) => some (ms, id :: ids)
      | none => none

/-- src/main.rs `receive_all`: gather one message per receiver, remove the
players whose channel failed, return the received directions. -/
def receive_all (recvOut : ρ → RecvOutcome) (ch : Channels σ ρ) (g : Game) :
    Option (List Direction × Channels σ ρ × Game) :=
  match gather_go recvOut 0 ch.receivers with
  | some (ms, ids) =>
    let r := remove_players ids ch g
    some (ms, r.1, r.2)
  | none => none

/-- Outcome of a non-blocking `try_recv()` on a receiver endpoint. -/
inductive TryRecvOutcome where
  | ok (m : ClientMessage)
  | empty
  | disconnected
deriving DecidableEq, Repr

/-- Lobby polling loop of src/main.rs `game_` (lines 173-190): walk the
receivers; `StartGame` sets `should_break`, an empty channel is skipped, and
both a non-start message and a disconnected channel hit a `panic!` of the
Coordinator thread, modelled as `none`.  Returns `some should_break`. -/
def lobby_poll (tryRecv : ρ → TryRecvOutcome) : List ρ → Option Bool
  | [] => some false
  | r :: rest =>
    match tryRecv r with
    | TryRecvOutcome.ok ClientMessage.StartGame => some true
    | TryRecvOutcome.ok (ClientMessage.Direction _) => none
    | TryRecvOutcome.empty => lobby_poll tryRecv rest
    | TryRecvOutcome.disconnected => none

/-- Direction assignment of src/main.rs `game_` (lines 229-233): snake `i`
latches the `i`-th received direction.  The source indexing
`directions[id]` panics when fewer directions than snakes exist, modelled
as `none`. -/
def assign_directions (g : Game) (ds : List Direction) : Option Game :=
  if g.snakes.length ≤ ds.length then
    some { g with snakes := List.zipWith (fun s d => { s with direction := d }) g.snakes ds }
  else none

/-- Specification-side multi-index deletion: keep exactly the elements whose
absolute position (counted from `n`) is not listed in `ids`, in order. -/
def filterIdxFrom (n : Nat) (l : List α) (ids : List Nat) : List α :=
  match l with
  | [] => []
  | x :: xs => if n ∈ ids then filterIdxFrom (n + 1) xs ids else x :: filterIdxFrom (n + 1) xs ids

/-! ### List helper lemmas -/

lemma rp_dec_length (i a : Nat) : ∀ (j : Nat) (l : List Nat), (rp_dec i a j l).length = l.length := by
  intro j l
  induction l generalizing j with
  | nil => rfl
  | cons v rest ih => simp [rp_dec, ih]

lemma rp_dec_drop (i a : Nat) :
    ∀ (m : Nat) (l : List Nat) (j : Nat), (rp_dec i a j l).drop m = rp_dec i a (j + m) (l.drop m) := by
  intro m
  induction m with
  | zero => intro l j; simp
  | succ m ih =>
    intro l j
    cases l with
    | nil => simp [rp_dec]
    | cons v rest =>
      show (rp_dec i a (j + 1) rest).drop m = rp_dec i a (j + (m + 1)) (rest.drop m)
      rw [ih rest (j + 1)]
      have h : j + 1 + m = j + (m + 1) := by omega
      rw [h]

lemma rp_dec_high (i a : Nat) :
    ∀ (l : List Nat) (j : Nat), i < j →
      rp_dec i a j l = l.map (fun v => if a < v then v - 1 else v) := by
  intro l
  induction l with
  | nil => intro j _; rfl
  | cons v rest ih =>
    intro j hj
    have hne : j ≠ i := by omega
    simp only [rp_dec, List.map_cons, ih (j + 1) (by omega)]
    congr 1
    simp [hne]

/-- Simultaneous-deletion reference in the shape of the outer loop: erase the
head index from everything, then recurse on the renumbered rest. -/
def removeSimAll (ch : Channels σ ρ) (g : Game) : List Nat → Channels σ ρ × Game
  | [] => (ch, g)
  | a :: rest =>
    removeSimAll
      { size := ch.size - 1, senders := ch.senders.eraseIdx a, receivers := ch.receivers.eraseIdx a }
      { g with states := g.states.eraseIdx a, snakes := g.snakes.eraseIdx a }
      (rest.map (fun v => if a < v then v - 1 else v))
termination_by ids => ids.length
decreasing_by simp

lemma removeSimAll_nil (ch : Channels σ ρ) (g : Game) : removeSimAll ch g [] = (ch, g) := by
  simp [removeSimAll]

lemma removeSimAll_cons (ch : Channels σ ρ) (g : Game) (a : Nat) (rest : List Nat) :
    removeSimAll ch g (a :: rest) =
      removeSimAll
        { size := ch.size - 1, senders := ch.senders.eraseIdx a, receivers := ch.receivers.eraseIdx a }
        { g with states := g.states.eraseIdx a, snakes := g.snakes.eraseIdx a }
        (rest.map (fun v => if a < v then v - 1 else v)) := by
  simp [removeSimAll]

lemma go_eq_sim :
    ∀ (fuel i : Nat) (ids : List Nat) (ch : Channels σ ρ) (g : Game),
      ids.length - i = fuel →
      remove_players_go i ids ch g fuel = removeSimAll ch g (ids.drop i) := by
  intro fuel
  induction fuel with
  | zero =>
    intro i ids ch g hf
    have h1 : ids.length ≤ i := by omega
    rw [List.drop_eq_nil_of_le h1, removeSimAll_nil]
    rfl
  | succ fuel ih =>
    intro i ids ch g hf
    have h : i < ids.length := by omega
    have hdrop : ids.drop i = ids.get ⟨i, h⟩ :: ids.drop (i + 1) := by
      rw [List.drop_eq_getElem_cons h]
      rfl
    rw [hdrop, removeSimAll_cons]
    show remove_players_go i ids ch g (fuel + 1) = _
    simp only [remove_players_go, dif_pos h]
    rw [ih (i + 1) (rp_dec i (ids.get ⟨i, h⟩) 0 ids) _ _ (by rw [rp_dec_length]; omega)]
    rw [rp_dec_drop]
    have hz : 0 + (i + 1) = i + 1 := by omega
    rw [hz, rp_dec_high i _ _ (i + 1) (by omega)]

/-- Per-list action of `removeSimAll`. -/
def removeSimList : List α → List Nat → List α
  | l, [] => l
  | l, a :: rest => removeSimList (l.eraseIdx a) (rest.map (fun v => if a < v then v - 1 else v))
termination_by _ ids => ids.length
decreasing_by simp

lemma removeSimList_nil (l : List α) : removeSimList l [] = l := by
  simp [removeSimList]

lemma removeSimList_cons (l : List α) (a : Nat) (rest : List Nat) :
    removeSimList l (a :: rest) =
      removeSimList (l.eraseIdx a) (rest.map (fun v => if a < v then v - 1 else v)) := by
  simp [removeSimList]

lemma removeSimAll_parts_aux :
    ∀ (n : Nat) (ids : List Nat), ids.length ≤ n → ∀ (ch : Channels σ ρ) (g : Game),
      removeSimAll ch g ids =
        ({ size := ch.size - ids.length,
           senders := removeSimList ch.senders ids,
           receivers := removeSimList ch.receivers ids },
         { g with states := removeSimList g.states ids, snakes := removeSimList g.snakes ids }) := by
  intro n
  induction n with
  | zero =>
    intro ids hlen ch g
    have : ids = [] := List.length_eq_zero.mp (by omega)
    subst this
    rw [removeSimAll_nil, removeSimList_nil, removeSimList_nil, removeSimList_nil,
        removeSimList_nil]
    rfl
  | succ n ih =>
    intro ids hlen ch g
    cases ids with
    | nil =>
      rw [removeSimAll_nil, removeSimList_nil, removeSimList_nil, removeSimList_nil,
          removeSimList_nil]
      rfl
    | cons a rest =>
      rw [removeSimAll_cons,
          ih (rest.map (fun v => if a < v then v - 1 else v))
             (by simp at hlen ⊢; omega),
          removeSimList_cons, removeSimList_cons, removeSimList_cons, removeSimList_cons]
      simp only [List.length_cons, List.length_map]
      congr 2
      omega

lemma removeSimAll_parts (ids : List Nat) (ch : Channels σ ρ) (g : Game) :
    removeSimAll ch g ids =
      ({ size := ch.size - ids.length,
         senders := removeSimList ch.senders ids,
         receivers := removeSimList ch.receivers ids },
       { g with states := removeSimList g.states ids, snakes := removeSimList g.snakes ids }) :=
  removeSimAll_parts_aux ids.length ids le_rfl ch g

lemma filterIdxFrom_nil : ∀ (n : Nat) (l : List α), filterIdxFrom n l [] = l := by
  intro n l
  induction l generalizing n with
  | nil => rfl
  | cons x xs ih => simp [filterIdxFrom, ih]

lemma filterIdxFrom_irrel :
    ∀ (l : List α) (n a : Nat) (ids : List Nat), a < n →
      filterIdxFrom n l (a :: ids) = filterIdxFrom n l ids := by
  intro l
  induction l with
  | nil => intro n a ids _; rfl
  | cons x xs ih =>
    intro n a ids ha
    have hne : n ≠ a := by omega
    simp only [filterIdxFrom, List.mem_cons, hne, false_or]
    rw [ih (n + 1) a ids (by omega)]

lemma mem_map_sub_one {ids : List Nat} (h1 : ∀ v ∈ ids, 1 ≤ v) (n : Nat) :
    n ∈ ids.map (fun v => v - 1) ↔ n + 1 ∈ ids := by
  simp only [List.mem_map]
  constructor
  · rintro ⟨v, hv, rfl⟩
    have := h1 v hv
    have : v - 1 + 1 = v := by omega
    rwa [this]
  · intro h
    exact ⟨n + 1, h, by omega⟩

lemma filterIdxFrom_shift :
    ∀ (l : List α) (n : Nat) (ids : List Nat), (∀ v ∈ ids, 1 ≤ v) →
      filterIdxFrom (n + 1) l ids = filterIdxFrom n l (ids.map (fun v => v - 1)) := by
  intro l
  induction l with
  | nil => intro n ids _; rfl
  | cons x xs ih =>
    intro n ids h1
    simp only [filterIdxFrom]
    rw [ih (n + 1) ids h1]
    simp only [mem_map_sub_one h1]

lemma filterIdxFrom_erase :
    ∀ (l : List α) (a : Nat) (ids : List Nat), (∀ v ∈ ids, a < v) →
      filterIdxFrom 0 l (a :: ids) = filterIdxFrom 0 (l.eraseIdx a) (ids.map (fun v => v - 1)) := by
  intro l
  induction l with
  | nil => intro a ids _; rfl
  | cons x xs ih =>
    intro a ids hgt
    cases a with
    | zero =>
      have h1 : ∀ v ∈ ids, 1 ≤ v := fun v hv => hgt v hv
      show filterIdxFrom 0 (x :: xs) (0 :: ids) = filterIdxFrom 0 xs (ids.map (fun v => v - 1))
      simp only [filterIdxFrom, List.mem_cons, true_or, if_true]
      rw [filterIdxFrom_irrel xs 1 0 ids (by omega), filterIdxFrom_shift xs 0 ids h1]
    | succ a1 =>
      have hnot : (0 : Nat) ∉ (a1 + 1) :: ids := by
        simp only [List.mem_cons, not_or]
        exact ⟨by omega, fun h => by have := hgt 0 h; omega⟩
      have hnot1 : (0 : Nat) ∉ ids.map (fun v => v - 1) := by
        simp only [List.mem_map, not_exists, not_and]
        intro v hv
        have := hgt v hv
        omega
      show filterIdxFrom 0 (x :: xs) ((a1 + 1) :: ids) = filterIdxFrom 0 (x :: xs.eraseIdx a1) (ids.map (fun v => v - 1))
      simp only [filterIdxFrom, hnot, hnot1, if_neg, if_false]
      congr 1
      have hall : ∀ v ∈ (a1 + 1) :: ids, 1 ≤ v := by
        intro v hv
        rcases List.mem_cons.mp hv with h | h
        · omega
        · have := hgt v h; omega
      rw [filterIdxFrom_shift xs 0 ((a1 + 1) :: ids) hall]
      simp only [List.map_cons]
      have hm1 : a1 + 1 - 1 = a1 := by omega
      rw [hm1]
      rw [ih a1 (ids.map (fun v => v - 1)) (by
        simp only [List.mem_map]
        rintro w ⟨v, hv, rfl⟩
        have := hgt v hv
        omega)]
      have h1 : ∀ v ∈ ids.map (fun v => v - 1), 1 ≤ v := by
        simp only [List.mem_map]
        rintro w ⟨v, hv, rfl⟩
        have := hgt v hv
        omega
      rw [filterIdxFrom_shift (xs.eraseIdx a1) 0 _ h1]

lemma pairwise_map_sub_one {rest : List Nat} (h1 : ∀ v ∈ rest, 1 ≤ v)
    (hp : rest.Pairwise (· < ·)) : (rest.map (fun v => v - 1)).Pairwise (· < ·) := by
  induction rest with
  | nil => simp
  | cons a l ih =>
    rcases List.pairwise_cons.mp hp with ⟨ha, hl⟩
    simp only [List.map_cons, List.pairwise_cons]
    refine ⟨?_, ih (fun v hv => h1 v (List.mem_cons_of_mem a hv)) hl⟩
    simp only [List.mem_map]
    rintro w ⟨v, hv, rfl⟩
    have hav := ha v hv
    have h1a := h1 a (List.mem_cons_self a l)
    omega

lemma removeSimList_filter_aux :
    ∀ (n : Nat) (ids : List Nat), ids.length ≤ n → ids.Pairwise (· < ·) →
      ∀ (l : List α), removeSimList l ids = filterIdxFrom 0 l ids := by
  intro n
  induction n with
  | zero =>
    intro ids hlen _ l
    have : ids = [] := List.length_eq_zero.mp (by omega)
    subst this
    rw [removeSimList_nil, filterIdxFrom_nil]
  | succ n ih =>
    intro ids hlen hp l
    cases ids with
    | nil => rw [removeSimList_nil, filterIdxFrom_nil]
    | cons a rest =>
      rcases List.pairwise_cons.mp hp with ⟨ha, hrest⟩
      rw [removeSimList_cons]
      have hcong : rest.map (fun v => if a < v then v - 1 else v) = rest.map (fun v => v - 1) := by
        apply List.map_congr_left
        intro v hv
        simp [ha v hv]
      rw [hcong]
      rw [ih (rest.map (fun v => v - 1)) (by simp at hlen ⊢; omega)
            (pairwise_map_sub_one (fun v hv => by have := ha v hv; omega) hrest) (l.eraseIdx a)]
      rw [filterIdxFrom_erase l a rest ha]

lemma removeSimList_filter (ids : List Nat) (hp : ids.Pairwise (· < ·)) (l : List α) :
    removeSimList l ids = filterIdxFrom 0 l ids :=
  removeSimList_filter_aux ids.length ids le_rfl hp l

/-- The simultaneous multi-index deletion performed by `remove_players` on a
strictly increasing index list: every listed original slot is deleted from
all collections at once, every other slot survives in order, and the size
counter drops by the number of deleted slots. -/
lemma remove_players_spec (ids : List Nat) (hp : ids.Pairwise (· < ·))
    (ch : Channels σ ρ) (g : Game) :
    remove_players ids ch g =
      ({ size := ch.size - ids.length,
         senders := filterIdxFrom 0 ch.senders ids,
         receivers := filterIdxFrom 0 ch.receivers ids },
       { g with states := filterIdxFrom 0 g.states ids, snakes := filterIdxFrom 0 g.snakes ids }) := by
  show remove_players_go 0 ids ch g ids.length = _
  rw [go_eq_sim ids.length 0 ids ch g (by omega)]
  rw [List.drop_zero, removeSimAll_parts]
  rw [removeSimList_filter ids hp ch.senders, removeSimList_filter ids hp ch.receivers,
      removeSimList_filter ids hp g.states, removeSimList_filter ids hp g.snakes]

/-! ### Failure-index collection and the gather loop -/

lemma collect_fails_ge : ∀ (l : List Bool) (n m : Nat), m ∈ collect_fails n l → n ≤ m := by
  intro l
  induction l with
  | nil => intro n m h; simp [collect_fails] at h
  | cons ok rest ih =>
    intro n m h
    cases ok with
    | true =>
      have := ih (n + 1) m h
      omega
    | false =>
      rcases List.mem_cons.mp h with h | h
      · omega
      · have := ih (n + 1) m h
        omega

lemma collect_fails_sorted : ∀ (l : List Bool) (n : Nat), (collect_fails n l).Pairwise (· < ·) := by
  intro l
  induction l with
  | nil => intro n; simp [collect_fails]
  | cons ok rest ih =>
    intro n
    cases ok with
    | true => exact ih (n + 1)
    | false =>
      simp only [collect_fails, List.pairwise_cons]
      exact ⟨fun m hm => by have := collect_fails_ge rest (n + 1) m hm; omega, ih (n + 1)⟩

lemma filterIdxFrom_collect :
    ∀ (l : List α) (ok : List Bool) (n : Nat), l.length = ok.length →
      filterIdxFrom n l (collect_fails n ok) = ((l.zip ok).filter (fun p => p.2)).map Prod.fst := by
  intro l
  induction l with
  | nil =>
    intro ok n hlen
    rfl
  | cons x xs ih =>
    intro ok n hlen
    cases ok with
    | nil => simp at hlen
    | cons b bs =>
      have hlen1 : xs.length = bs.length := by simpa using hlen
      cases b with
      | true =>
        have hnot : n ∉ collect_fails (n + 1) bs := fun h => by
          have := collect_fails_ge bs (n + 1) n h
          omega
        have hcf : collect_fails n (true :: bs) = collect_fails (n + 1) bs := rfl
        rw [hcf]
        simp only [filterIdxFrom]
        rw [if_neg hnot, ih bs (n + 1) hlen1]
        simp [List.filter_cons]
      | false =>
        have hcf : collect_fails n (false :: bs) = n :: collect_fails (n + 1) bs := rfl
        rw [hcf]
        simp only [filterIdxFrom]
        rw [if_pos (List.mem_cons_self n _)]
        rw [filterIdxFrom_irrel xs (n + 1) n _ (by omega), ih bs (n + 1) hlen1]
        simp [List.filter_cons]

lemma zip_self_filter :
    ∀ (l : List ρ) (f : ρ → Bool),
      ((l.zip (l.map f)).filter (fun p => p.2)).map Prod.fst = l.filter f := by
  intro l f
  induction l with
  | nil => rfl
  | cons r rest ih =>
    simp only [List.map_cons, List.zip_cons_cons, List.filter_cons]
    cases hf : f r with
    | true => simpa [hf] using ih
    | false => simpa [hf] using ih

lemma zip_filter_length :
    ∀ (l1 : List α) (ok : List Bool), l1.length = ok.length →
      (((l1.zip ok).filter (fun p => p.2)).map Prod.fst).length = (ok.filter (fun b => b)).length := by
  intro l1
  induction l1 with
  | nil =>
    intro ok hlen
    have : ok = [] := List.length_eq_zero.mp (by simpa using hlen.symm)
    subst this
    rfl
  | cons x xs ih =>
    intro ok hlen
    cases ok with
    | nil => simp at hlen
    | cons b bs =>
      have hlen1 : xs.length = bs.length := by simpa using hlen
      cases b with
      | true => simp [List.filter_cons, ih bs hlen1]
      | false => simp [List.filter_cons, ih bs hlen1]

lemma filterMap_isSome_length :
    ∀ (l : List ρ) (h : ρ → Option β),
      (l.filterMap h).length = ((l.map (fun r => (h r).isSome)).filter (fun b => b)).length := by
  intro l h
  induction l with
  | nil => rfl
  | cons r rest ih =>
    cases hr : h r with
    | none => simp [List.filterMap_cons, hr, ih]
    | some b => simp [List.filterMap_cons, hr, ih]

/-- The direction carried by a gather outcome, if any. -/
def dirOf : RecvOutcome → Option Direction
  | RecvOutcome.ok (ClientMessage.Direction d) => some d
  | RecvOutcome.ok ClientMessage.StartGame => none
  | RecvOutcome.err => none

/-- Whether a gather outcome is a successfully received direction. -/
def isDirMsg (o : RecvOutcome) : Bool := (dirOf o).isSome

lemma gather_go_eq {recvOut : ρ → RecvOutcome} :
    ∀ (l : List ρ) (n : Nat),
      (∀ r ∈ l, recvOut r ≠ RecvOutcome.ok ClientMessage.StartGame) →
      gather_go recvOut n l =
        some (l.filterMap (fun r => dirOf (recvOut r)),
              collect_fails n (l.map (fun r => isDirMsg (recvOut r)))) := by
  intro l
  induction l with
  | nil => intro n _; rfl
  | cons r rest ih =>
    intro n hpv
    have hrest : ∀ x ∈ rest, recvOut x ≠ RecvOutcome.ok ClientMessage.StartGame :=
      fun x hx => hpv x (List.mem_cons_of_mem r hx)
    have hr := hpv r (List.mem_cons_self r rest)
    cases ho : recvOut r with
    | ok m =>
      cases m with
      | Direction d =>
        simp [gather_go, ho, ih (n + 1) hrest, dirOf, isDirMsg, collect_fails]
      | StartGame => exact absurd ho hr
    | err =>
      simp [gather_go, ho, ih (n + 1) hrest, dirOf, isDirMsg, collect_fails]

lemma gather_go_some_sorted {recvOut : ρ → RecvOutcome} :
    ∀ (l : List ρ) (n : Nat) (ms : List Direction) (ids : List Nat),
      gather_go recvOut n l = some (ms, ids) →
      ids.Pairwise (· < ·) ∧ ∀ m ∈ ids, n ≤ m := by
  intro l
  induction l with
  | nil =>
    intro n ms ids h
    simp only [gather_go, Option.some.injEq, Prod.mk.injEq] at h
    rcases h with ⟨_, rfl⟩
    exact ⟨List.Pairwise.nil, by simp⟩
  | cons r rest ih =>
    intro n ms ids h
    cases ho : recvOut r with
    | ok m =>
      cases m with
      | Direction d =>
        simp only [gather_go, ho] at h
        cases hg : gather_go recvOut (n + 1) rest with
        | none => rw [hg] at h; exact absurd h (by simp)
        | some p =>
          rw [hg] at h
          obtain ⟨ms1, ids1⟩ := p
          simp only [Option.some.injEq, Prod.mk.injEq] at h
          rcases h with ⟨_, rfl⟩
          rcases ih (n + 1) ms1 ids1 hg with ⟨hs, hge⟩
          exact ⟨hs, fun m hm => by have := hge m hm; omega⟩
      | StartGame =>
        simp only [gather_go, ho] at h
        exact absurd h (by simp)
    | err =>
      simp only [gather_go, ho] at h
      cases hg : gather_go recvOut (n + 1) rest with
      | none => rw [hg] at h; exact absurd h (by simp)
      | some p =>
        rw [hg] at h
        obtain ⟨ms1, ids1⟩ := p
        simp only [Option.some.injEq, Prod.mk.injEq] at h
        rcases h with ⟨_, rfl⟩
        rcases ih (n + 1) ms1 ids1 hg with ⟨hs, hge⟩
        refine ⟨List.pairwise_cons.mpr ⟨fun m hm => by have := hge m hm; omega, hs⟩, ?_⟩
        intro m hm
        rcases List.mem_cons.mp hm with h | h
        · omega
        · have := hge m h
          omega

/-! ### Invariant-preservation helper lemmas -/

lemma create_food_parts :
    ∀ (rng : List Point) (g g1 : Game) (rng1 : List Point),
      g.create_food rng = some (g1, rng1) →
      g1.snakes = g.snakes ∧ g1.states = g.states ∧ g1.width = g.width ∧ g1.height = g.height ∧
        g.do_overlap g1.food = false := by
  intro rng
  induction rng with
  | nil => intro g g1 rng1 h; exact Option.noConfusion h
  | cons p rest ih =>
    intro g g1 rng1 h
    simp only [Game.create_food] at h
    cases ho : g.do_overlap p with
    | true =>
      simp only [ho, if_true] at h
      exact ih g g1 rng1 h
    | false =>
      simp only [ho, Bool.false_eq_true, if_false, Option.some.injEq, Prod.mk.injEq] at h
      rcases h with ⟨h1, h2⟩
      subst h1
      exact ⟨rfl, rfl, rfl, rfl, ho⟩

lemma play_turn_step_lengths {old : List (List Point)} {st : Game × List Point} {id : Nat}
    {g1 : Game} {rng1 : List Point} (h : Game.play_turn_step old st id = some (g1, rng1)) :
    g1.snakes.length = st.1.snakes.length ∧ g1.states.length = st.1.states.length := by
  obtain ⟨g0, rng0⟩ := st
  simp only [Game.play_turn_step] at h
  split at h
  · simp only [Option.some.injEq, Prod.mk.injEq] at h
    rcases h with ⟨rfl, _⟩
    simp
  · have hp := create_food_parts rng0 _ g1 rng1 h
    constructor
    · rw [hp.1]
      simp
    · rw [hp.2.1]
  · simp only [Option.some.injEq, Prod.mk.injEq] at h
    rcases h with ⟨rfl, _⟩
    exact ⟨rfl, rfl⟩

lemma foldlM_play_lengths :
    ∀ (l : List Nat) (old : List (List Point)) (st : Game × List Point) (out : Game × List Point),
      List.foldlM (Game.play_turn_step old) st l = some out →
      out.1.snakes.length = st.1.snakes.length ∧ out.1.states.length = st.1.states.length := by
  intro l
  induction l with
  | nil =>
    intro old st out h
    simp only [List.foldlM_nil, Option.pure_def, Option.some.injEq] at h
    subst h
    exact ⟨rfl, rfl⟩
  | cons x xs ih =>
    intro old st out h
    simp only [List.foldlM_cons] at h
    cases hs : Game.play_turn_step old st x with
    | none => rw [hs] at h; exact absurd h (by simp)
    | some st1 =>
      rw [hs] at h
      simp only [Option.bind_some, Option.bind_eq_bind] at h
      obtain ⟨g1, rng1⟩ := st1
      have h1 := play_turn_step_lengths hs
      have h2 := ih old (g1, rng1) out h
      exact ⟨h2.1.trans h1.1, h2.2.trans h1.2⟩

lemma play_turn_lengths {g : Game} {rng : List Point} {g1 : Game} {rng1 : List Point}
    (h : g.play_turn rng = some (g1, rng1)) :
    g1.snakes.length = g.snakes.length ∧ g1.states.length = g.states.length := by
  unfold Game.play_turn at h
  have h2 := foldlM_play_lengths _ _ _ _ h
  simpa [Game.move_snakes] using h2

lemma remove_players_go_align :
    ∀ (fuel i : Nat) (ids : List Nat) (ch : Channels σ ρ) (g : Game),
      g.snakes.length = g.states.length →
      ((remove_players_go i ids ch g fuel).2).snakes.length =
        ((remove_players_go i ids ch g fuel).2).states.length := by
  intro fuel
  induction fuel with
  | zero => intro i ids ch g hal; exact hal
  | succ fuel ih =>
    intro i ids ch g hal
    simp only [remove_players_go]
    split
    · apply ih
      simp only [List.length_eraseIdx]
      rw [hal]
    · exact hal

/-! ### Claims C1 and C2 -/

/-- Claim C1: for every match, after every admission (`Game::new` builds one
snake and one state per player), every removal (`remove_players`), and every
turn step (`play_turn`), the game satisfies `snakes.len() == states.len()`. -/
theorem claim_C1 :
    (∀ (nb : Nat) (rng : List Point) (g : Game) (rng1 : List Point),
      Game.new nb rng = some (g, rng1) → g.snakes.length = nb ∧ g.states.length = nb) ∧
    (∀ (σ ρ : Type) (ids : List Nat) (ch : Channels σ ρ) (g : Game),
      g.snakes.length = g.states.length →
      ((remove_players ids ch g).2).snakes.length = ((remove_players ids ch g).2).states.length) ∧
    (∀ (g : Game) (rng : List Point) (g1 : Game) (rng1 : List Point),
      g.snakes.length = g.states.length →
      g.play_turn rng = some (g1, rng1) → g1.snakes.length = g1.states.length) := by
  refine ⟨?_, ?_, ?_⟩
  · intro nb rng g rng1 h
    unfold Game.new at h
    have hp := create_food_parts rng _ g rng1 h
    constructor
    · rw [hp.1]
      simp
    · rw [hp.2.1]
      simp
  · intro σ ρ ids ch g hal
    exact remove_players_go_align ids.length 0 ids ch g hal
  · intro g rng g1 rng1 hal h
    have hl := play_turn_lengths h
    rw [hl.1, hl.2]
    exact hal

/-- Concrete one-player game used to instantiate claim C1. -/
def cC1g : Game :=
  { snakes := [⟨[⟨5, 5⟩, ⟨6, 5⟩, ⟨7, 5⟩], Direction.Right⟩],
    food := ⟨2, 2⟩, width := 20, height := 20, states := [GameState.Playing] }

/-- Result of one turn of `cC1g`. -/
def cC1out : Game := ((cC1g.play_turn []).getD (cC1g, [])).1

theorem claim_C1_witness :
    cC1g.snakes.length = cC1g.states.length ∧ cC1g.play_turn [] = some (cC1out, []) ∧
      cC1out.snakes.length = cC1out.states.length :=
  ⟨by decide, by decide, claim_C1.2.2 cC1g [] cC1out [] (by decide) (by decide)⟩

/-- Claim C2: on a strictly increasing list of failing indices,
`remove_players` deletes exactly the slots at those original indices from the
senders, receivers, states and snakes simultaneously (surviving players keep
their data in order, size drops by the number of removals); the index lists
collected by a broadcast round (`send_all`) and by a gather round
(`receive_all`) are strictly increasing and both rounds apply this same
removal procedure. -/
theorem claim_C2 (σ ρ : Type) (ch : Channels σ ρ) (g : Game) :
    (∀ ids : List Nat, ids.Pairwise (· < ·) →
      remove_players ids ch g =
        ({ size := ch.size - ids.length,
           senders := filterIdxFrom 0 ch.senders ids,
           receivers := filterIdxFrom 0 ch.receivers ids },
         { g with states := filterIdxFrom 0 g.states ids,
                  snakes := filterIdxFrom 0 g.snakes ids })) ∧
    (∀ sendOk : σ → Bool,
      send_all sendOk ch g = remove_players (collect_fails 0 (ch.senders.map sendOk)) ch g ∧
      (collect_fails 0 (ch.senders.map sendOk)).Pairwise (· < ·)) ∧
    (∀ (recvOut : ρ → RecvOutcome) (ms : List Direction) (ids : List Nat),
      gather_go recvOut 0 ch.receivers = some (ms, ids) →
      ids.Pairwise (· < ·) ∧
      receive_all recvOut ch g =
        some (ms, (remove_players ids ch g).1, (remove_players ids ch g).2)) := by
  refine ⟨fun ids hp => remove_players_spec ids hp ch g,
          fun sendOk => ⟨rfl, collect_fails_sorted _ 0⟩,
          fun recvOut ms ids hg => ⟨(gather_go_some_sorted _ 0 ms ids hg).1, ?_⟩⟩
  simp [receive_all, hg]

/-- Concrete three-player channel pool used to instantiate claim C2. -/
def cCh3 : Channels Nat Nat := { size := 3, senders := [10, 11, 12], receivers := [20, 21, 22] }

/-- Concrete three-player game used to instantiate claim C2. -/
def cG3 : Game :=
  { snakes := [⟨[⟨1, 1⟩], Direction.Up⟩, ⟨[⟨2, 2⟩], Direction.Down⟩, ⟨[⟨3, 3⟩], Direction.Left⟩],
    food := ⟨4, 4⟩, width := 20, height := 20,
    states := [GameState.Ready, GameState.Playing, GameState.Lost] }

theorem claim_C2_witness :
    (([0, 2] : List Nat).Pairwise (· < ·)) ∧
      remove_players [0, 2] cCh3 cG3 =
        ({ size := 1, senders := [11], receivers := [21] },
         { snakes := [⟨[⟨2, 2⟩], Direction.Down⟩], food := ⟨4, 4⟩, width := 20, height := 20,
           states := [GameState.Playing] }) := by
  refine ⟨by decide, ?_⟩
  rw [(claim_C2 Nat Nat cCh3 cG3).1 [0, 2] (by decide)]
  decide

/-! ### Claims C3 and C5 -/

lemma receive_all_ok {recvOut : ρ → RecvOutcome} (ch : Channels σ ρ) (g : Game)
    (hpv : ∀ r ∈ ch.receivers, recvOut r ≠ RecvOutcome.ok ClientMessage.StartGame) :
    receive_all recvOut ch g =
      some (ch.receivers.filterMap (fun r => dirOf (recvOut r)),
            (remove_players
              (collect_fails 0 (ch.receivers.map (fun r => isDirMsg (recvOut r)))) ch g).1,
            (remove_players
              (collect_fails 0 (ch.receivers.map (fun r => isDirMsg (recvOut r)))) ch g).2) := by
  simp [receive_all, gather_go_eq ch.receivers 0 hpv]

lemma receivers_after_gather {recvOut : ρ → RecvOutcome} (ch : Channels σ ρ) (g : Game) :
    ((remove_players
        (collect_fails 0 (ch.receivers.map (fun r => isDirMsg (recvOut r)))) ch g).1).receivers =
      ch.receivers.filter (fun r => isDirMsg (recvOut r)) := by
  rw [remove_players_spec _ (collect_fails_sorted _ 0) ch g]
  show filterIdxFrom 0 ch.receivers _ = _
  rw [filterIdxFrom_collect ch.receivers _ 0 (by simp)]
  exact zip_self_filter ch.receivers _

lemma snakes_after_gather {recvOut : ρ → RecvOutcome} (ch : Channels σ ρ) (g : Game)
    (hal : g.snakes.length = ch.receivers.length) :
    ((remove_players
        (collect_fails 0 (ch.receivers.map (fun r => isDirMsg (recvOut r)))) ch g).2).snakes =
      ((g.snakes.zip (ch.receivers.map (fun r => isDirMsg (recvOut r)))).filter
        (fun p => p.2)).map Prod.fst := by
  rw [remove_players_spec _ (collect_fails_sorted _ 0) ch g]
  show filterIdxFrom 0 g.snakes _ = _
  rw [filterIdxFrom_collect g.snakes _ 0 (by simp [hal])]

lemma zipWith_direction :
    ∀ (l : List Snake) (ds : List Direction) (i : Nat),
      i < (List.zipWith (fun s d => { s with direction := d }) l ds).length →
      ((List.zipWith (fun s d => { s with direction := d }) l ds).getD i dummyS).direction =
        ds.getD i Direction.Up := by
  intro l
  induction l with
  | nil => intro ds i h; simp at h
  | cons s rest ih =>
    intro ds i h
    cases ds with
    | nil => simp at h
    | cons d dsrest =>
      cases i with
      | zero => rfl
      | succ i =>
        simp only [List.zipWith_cons_cons, List.length_cons] at h
        have := ih dsrest i (by omega)
        simpa using this

/-- Claim C3: a gather round collects exactly one direction per
still-connected session in index order (failed sessions are removed and
contribute nothing), the returned direction list aligns positionally with
the surviving snakes, and the direction at position `i` is latched by
surviving snake `i`. -/
theorem claim_C3 (σ ρ : Type) (recvOut : ρ → RecvOutcome) (ch : Channels σ ρ) (g : Game)
    (hpv : ∀ r ∈ ch.receivers, recvOut r ≠ RecvOutcome.ok ClientMessage.StartGame)
    (hal : g.snakes.length = ch.receivers.length) :
    (receive_all recvOut ch g).isSome = true ∧
    ∀ ds ch1 g1, receive_all recvOut ch g = some (ds, ch1, g1) →
      ds = ch.receivers.filterMap (fun r => dirOf (recvOut r)) ∧
      ch1.receivers = ch.receivers.filter (fun r => isDirMsg (recvOut r)) ∧
      g1.snakes = ((g.snakes.zip (ch.receivers.map (fun r => isDirMsg (recvOut r)))).filter
                    (fun p => p.2)).map Prod.fst ∧
      g1.snakes.length = ds.length ∧
      (assign_directions g1 ds).isSome = true ∧
      ∀ gA, assign_directions g1 ds = some gA →
        gA.snakes.length = g1.snakes.length ∧
        ∀ i, i < gA.snakes.length →
          (gA.snakes.getD i dummyS).direction = ds.getD i Direction.Up := by
  have hra := receive_all_ok ch g hpv
  constructor
  · rw [hra]
    rfl
  · intro ds ch1 g1 h
    rw [hra] at h
    simp only [Option.some.injEq, Prod.mk.injEq] at h
    rcases h with ⟨hds, hch1, hg1⟩
    subst hds
    subst hch1
    subst hg1
    refine ⟨rfl, receivers_after_gather ch g, snakes_after_gather ch g hal, ?_, ?_⟩
    · rw [snakes_after_gather ch g hal,
        zip_filter_length g.snakes _ (by simp [hal]),
        filterMap_isSome_length ch.receivers (fun r => dirOf (recvOut r))]
      rfl
    · have hlen : ((remove_players
          (collect_fails 0 (ch.receivers.map (fun r => isDirMsg (recvOut r)))) ch g).2).snakes.length =
          (ch.receivers.filterMap (fun r => dirOf (recvOut r))).length := by
        rw [snakes_after_gather ch g hal,
          zip_filter_length g.snakes _ (by simp [hal]),
          filterMap_isSome_length ch.receivers (fun r => dirOf (recvOut r))]
        rfl
      constructor
      · simp [assign_directions, hlen]
      · intro gA hga
        simp only [assign_directions, hlen, le_refl, if_pos, Option.some.injEq] at hga
        subst hga
        constructor
        · simp [hlen]
        · intro i hi
          exact zipWith_direction _ _ i hi

/-- Oracle for the concrete claim-C3 scenario: the session at index 0 fails
the gather, the one at index 1 answers `Up`. -/
def cRecvC3 : Nat → RecvOutcome :=
  fun r => if r == 0 then RecvOutcome.err else RecvOutcome.ok (ClientMessage.Direction Direction.Up)

/-- Concrete two-player channel pool for the claim-C3 scenario. -/
def cChC3 : Channels Nat Nat := { size := 2, senders := [100, 101], receivers := [0, 1] }

/-- Concrete two-player game for the claim-C3 scenario. -/
def cGC3 : Game :=
  { snakes := [⟨[⟨9, 5⟩, ⟨10, 5⟩, ⟨11, 5⟩], Direction.Right⟩,
               ⟨[⟨9, 10⟩, ⟨10, 10⟩, ⟨11, 10⟩], Direction.Right⟩],
    food := ⟨2, 2⟩, width := 20, height := 20, states := [GameState.Playing, GameState.Playing] }

theorem claim_C3_witness :
    (∀ r ∈ cChC3.receivers, cRecvC3 r ≠ RecvOutcome.ok ClientMessage.StartGame) ∧
    cGC3.snakes.length = cChC3.receivers.length ∧
    (receive_all cRecvC3 cChC3 cGC3).isSome = true ∧
    receive_all cRecvC3 cChC3 cGC3 =
      some ([Direction.Up],
            { size := 1, senders := [101], receivers := [1] },
            { snakes := [⟨[⟨9, 10⟩, ⟨10, 10⟩, ⟨11, 10⟩], Direction.Right⟩],
              food := ⟨2, 2⟩, width := 20, height := 20, states := [GameState.Playing] }) :=
  ⟨by decide, by decide, (claim_C3 Nat Nat cRecvC3 cChC3 cGC3 (by decide) (by decide)).1,
   by decide⟩

/-- With every lobby receiver reporting a closed channel, the Coordinator
lobby poll hits `panic!("Channel disconnected")` (modelled `none`) instead
of removing the player's slot: a disconnect observed during the lobby loop
is fatal to the Coordinator thread. -/
theorem claim_C5_counterexample :
    lobby_poll (fun _ : Nat => TryRecvOutcome.disconnected) [0] = none := by decide

/-- Claim C5, amended: a read/write failure observed during a *mid-match*
broadcast or gather is recovered locally — `send_all` always returns,
keeping exactly the senders whose send succeeded, and `receive_all` never
aborts on a disconnect (only on a protocol violation), keeping exactly the
receivers whose receive succeeded.  (A disconnect observed during the lobby
polling loop, by contrast, panics the Coordinator thread, see the
counterexample.) -/
theorem claim_C5 (σ ρ : Type) (sendOk : σ → Bool) (recvOut : ρ → RecvOutcome)
    (ch : Channels σ ρ) (g : Game) :
    ((send_all sendOk ch g).1.senders = ch.senders.filter sendOk) ∧
    ((∀ r ∈ ch.receivers, recvOut r ≠ RecvOutcome.ok ClientMessage.StartGame) →
      (receive_all recvOut ch g).isSome = true ∧
      ∀ ds ch1 g1, receive_all recvOut ch g = some (ds, ch1, g1) →
        ch1.receivers = ch.receivers.filter (fun r => isDirMsg (recvOut r))) := by
  constructor
  · show ((remove_players (collect_fails 0 (ch.senders.map sendOk)) ch g).1).senders = _
    rw [remove_players_spec _ (collect_fails_sorted _ 0) ch g]
    show filterIdxFrom 0 ch.senders _ = _
    rw [filterIdxFrom_collect ch.senders _ 0 (by simp)]
    exact zip_self_filter ch.senders sendOk
  · intro hpv
    have hra := receive_all_ok ch g hpv
    constructor
    · rw [hra]
      rfl
    · intro ds ch1 g1 h
      rw [hra] at h
      simp only [Option.some.injEq, Prod.mk.injEq] at h
      rcases h with ⟨_, hch1, _⟩
      subst hch1
      exact receivers_after_gather ch g

/-- Oracle for the concrete claim-C5 instance: the send to sender 11 fails. -/
def cSendC5 : Nat → Bool := fun s => !(s == 11)

theorem claim_C5_witness :
    (send_all cSendC5 cCh3 cG3).1.senders = [10, 12] ∧
    (∀ r ∈ cCh3.receivers, cRecvC3 r ≠ RecvOutcome.ok ClientMessage.StartGame) ∧
    (receive_all cRecvC3 cCh3 cG3).isSome = true := by
  refine ⟨?_, by decide, ((claim_C5 Nat Nat cSendC5 cRecvC3 cCh3 cG3).2 (by decide)).1⟩
  rw [(claim_C5 Nat Nat cSendC5 cRecvC3 cCh3 cG3).1]
  decide

/-! ### Claims C9, C7 and C10 -/

/-- Claim C9: whenever `create_food` returns (for any outcome of the random
source), the chosen food point does not overlap any segment of any snake's
body; and a free candidate among the draws guarantees it returns. -/
theorem claim_C9 :
    (∀ (g : Game) (rng : List Point) (g1 : Game) (rng1 : List Point),
      g.create_food rng = some (g1, rng1) →
      g1.do_overlap g1.food = false ∧ g1.snakes = g.snakes) ∧
    (∀ (g : Game) (rng : List Point),
      (∃ p ∈ rng, g.do_overlap p = false) → (g.create_food rng).isSome = true) := by
  constructor
  · intro g rng g1 rng1 h
    have hp := create_food_parts rng g g1 rng1 h
    refine ⟨?_, hp.1⟩
    show (g1.snakes.any (fun s => s._do_overlap g1.food)) = false
    rw [hp.1]
    exact hp.2.2.2.2
  · intro g rng
    induction rng with
    | nil => intro h; simp at h
    | cons p rest ih =>
      intro h
      show (Game.create_food g (p :: rest)).isSome = true
      simp only [Game.create_food]
      cases ho : g.do_overlap p with
      | true =>
        simp only [ho, if_true]
        apply ih
        rcases h with ⟨q, hq, hov⟩
        rcases List.mem_cons.mp hq with rfl | hq1
        · rw [ho] at hov
          exact absurd hov (by simp)
        · exact ⟨q, hq1, hov⟩
      | false => simp [ho]

/-- Game used to instantiate claim C9 concretely. -/
def cOutC9 : Game := ((cG3.create_food [⟨9, 9⟩]).getD (cG3, [])).1

theorem claim_C9_witness :
    cG3.create_food [⟨9, 9⟩] = some (cOutC9, []) ∧
      cOutC9.do_overlap cOutC9.food = false ∧ cOutC9.snakes = cG3.snakes :=
  ⟨by decide, (claim_C9.1 cG3 [⟨9, 9⟩] cOutC9 [] (by decide))⟩

lemma sub16_one (a : Nat) (h1 : 1 ≤ a) (h2 : a < M) : sub16 a 1 = a - 1 := by
  simp only [sub16, M]
  simp only [M] at h2
  omega

lemma add16_one (a : Nat) (h2 : a + 1 < M) : add16 a 1 = a + 1 := by
  simp only [add16, M]
  simp only [M] at h2
  omega

lemma getLastD_drop_one (l : List Point) (d : Point) (h : 2 ≤ l.length) :
    (l.drop 1).getLastD d = l.getLastD d := by
  cases l with
  | nil => simp at h
  | cons x xs =>
    cases xs with
    | nil => simp at h
    | cons y ys => simp [List.getLastD_cons]

/-- Claim C7: for a body of length at least 3 (head in range for the
direction of travel), `_move` drops the tail segment (first element), keeps
the middle intact, appends exactly one new head one cell further in the
current direction, preserves the length and the direction. -/
theorem claim_C7 (s : Snake) (h3 : 3 ≤ s.body.length) (head : Point)
    (hhead : head = s.body.getLastD dummyP) :
    (Snake._move s).direction = s.direction ∧
    (Snake._move s).body.length = s.body.length ∧
    (Snake._move s).body.take (s.body.length - 1) = s.body.drop 1 ∧
    (s.direction = Direction.Right → head.x + 1 < M →
      (Snake._move s).body = s.body.drop 1 ++ [{ x := head.x + 1, y := head.y }]) ∧
    (s.direction = Direction.Down → head.y + 1 < M →
      (Snake._move s).body = s.body.drop 1 ++ [{ x := head.x, y := head.y + 1 }]) ∧
    (s.direction = Direction.Up → 1 ≤ head.y → head.y < M →
      (Snake._move s).body = s.body.drop 1 ++ [{ x := head.x, y := head.y - 1 }]) ∧
    (s.direction = Direction.Left → 1 ≤ head.x → head.x < M →
      (Snake._move s).body = s.body.drop 1 ++ [{ x := head.x - 1, y := head.y }]) := by
  have hpt : (s.body.drop 1).getLastD dummyP = head := by
    rw [hhead]
    exact getLastD_drop_one s.body dummyP (by omega)
  refine ⟨rfl, ?_, ?_, ?_, ?_, ?_, ?_⟩
  · show (s.body.drop 1 ++ [_]).length = s.body.length
    simp
    omega
  · show (s.body.drop 1 ++ [_]).take (s.body.length - 1) = s.body.drop 1
    have hl : s.body.length - 1 = (s.body.drop 1).length := by simp
    rw [hl]
    exact List.take_left _ _
  · intro hd hx
    show s.body.drop 1 ++ [_] = _
    rw [hpt, hd]
    rw [add16_one head.x hx]
  · intro hd hy
    show s.body.drop 1 ++ [_] = _
    rw [hpt, hd]
    rw [add16_one head.y hy]
  · intro hd hy1 hyM
    show s.body.drop 1 ++ [_] = _
    rw [hpt, hd]
    rw [sub16_one head.y hy1 hyM]
  · intro hd hx1 hxM
    show s.body.drop 1 ++ [_] = _
    rw [hpt, hd]
    rw [sub16_one head.x hx1 hxM]

/-- Scenario snake of claim C7. -/
def cSC7 : Snake := { body := [⟨9, 5⟩, ⟨10, 5⟩, ⟨11, 5⟩], direction := Direction.Right }

theorem claim_C7_witness :
    3 ≤ cSC7.body.length ∧
    ((Snake._move cSC7).body = cSC7.body.drop 1 ++ [{ x := 12, y := 5 }] ∧
      (Snake._move cSC7).body = [⟨10, 5⟩, ⟨11, 5⟩, ⟨12, 5⟩]) :=
  ⟨by decide,
   (claim_C7 cSC7 (by decide) ⟨11, 5⟩ (by decide)).2.2.2.1 rfl (by decide),
   by decide⟩

/-- Claim C10: `_move` computes unguarded `u16` decrements — going `Up`
(resp. `Left`) the new head is the true one-cell step exactly when the head's
`y` (resp. `x`) coordinate is at least 1, and at coordinate 0 the
subtraction wraps to 65535; and `move_snakes` advances every snake each
turn regardless of the `states` list. -/
theorem claim_C10 (s : Snake) (h2 : 2 ≤ s.body.length) (head : Point)
    (hhead : head = s.body.getLastD dummyP) :
    ((s.direction = Direction.Up → head.y < M →
        ((1 ≤ head.y →
          (Snake._move s).body.getLastD dummyP = { x := head.x, y := head.y - 1 }) ∧
         (head.y = 0 → ((Snake._move s).body.getLastD dummyP).y = M - 1))) ∧
     (s.direction = Direction.Left → head.x < M →
        ((1 ≤ head.x →
          (Snake._move s).body.getLastD dummyP = { x := head.x - 1, y := head.y }) ∧
         (head.x = 0 → ((Snake._move s).body.getLastD dummyP).x = M - 1)))) ∧
    (∀ (g : Game),
      g.move_snakes.snakes = g.snakes.map Snake._move ∧
      g.move_snakes.states = g.states ∧
      ∀ st : List GameState,
        (Game.mk g.snakes g.food g.width g.height st).move_snakes.snakes =
          g.move_snakes.snakes) := by
  have hpt : (s.body.drop 1).getLastD dummyP = head := by
    rw [hhead]
    exact getLastD_drop_one s.body dummyP h2
  constructor
  · constructor
    · intro hd hyM
      have hlast : (Snake._move s).body.getLastD dummyP =
          { x := head.x, y := sub16 head.y 1 } := by
        show (s.body.drop 1 ++ [_]).getLastD dummyP = _
        rw [hd, hpt]
        simp
      constructor
      · intro hy1
        rw [hlast, sub16_one head.y hy1 hyM]
      · intro hy0
        rw [hlast, hy0]
        show sub16 0 1 = M - 1
        decide
    · intro hd hxM
      have hlast : (Snake._move s).body.getLastD dummyP =
          { x := sub16 head.x 1, y := head.y } := by
        show (s.body.drop 1 ++ [_]).getLastD dummyP = _
        rw [hd, hpt]
        simp
      constructor
      · intro hx1
        rw [hlast, sub16_one head.x hx1 hxM]
      · intro hx0
        rw [hlast, hx0]
        show sub16 0 1 = M - 1
        decide
  · intro g
    exact ⟨rfl, rfl, fun st => rfl⟩

/-- Snake at the top border used to instantiate claim C10: its head sits at
`y = 0` and it is heading `Up`. -/
def cSC10 : Snake := { body := [⟨4, 0⟩, ⟨5, 0⟩], direction := Direction.Up }

theorem claim_C10_witness :
    2 ≤ cSC10.body.length ∧
    ((Snake._move cSC10).body.getLastD dummyP).y = 65535 :=
  ⟨by decide,
   by
    have h := ((claim_C10 cSC10 (by decide) ⟨5, 0⟩ (by decide)).1.1 rfl (by decide)).2 rfl
    simpa [M] using h⟩

/-! ### Claim C6 -/

lemma beq_point_iff (p q : Point) : (p.x == q.x && p.y == q.y) = true ↔ p = q := by
  cases p
  cases q
  simp [Point.mk.injEq]

lemma point_eq_of (p q : Point) (hx : p.x = q.x) (hy : p.y = q.y) : p = q := by
  cases p
  cases q
  cases hx
  cases hy
  rfl

/-- Claim C6: collision classification after movement.  The border test fires
exactly when a head coordinate equals 1 or equals width/height; the snake
test fires exactly when the head cell equals some body cell of some snake
(its own body included) other than the head cell itself; border-or-snake
yields `BorderOrSnake` and overrides food; otherwise head-on-food yields
`Food`; otherwise `None`. -/
theorem claim_C6 (g : Game) (id : Nat)
    (hbody : (g.snakes.getD id dummyS).body ≠ [])
    (hw : g.width < M) (hh : g.height < M)
    (head : Point) (hhead : head = (g.snakes.getD id dummyS).body.getLastD dummyP) :
    ((g.snakes.getD id dummyS)._check_border_collisions g.width g.height = true ↔
      (head.x = 1 ∨ head.x = g.width ∨ head.y = 1 ∨ head.y = g.height)) ∧
    (g.check_snake_collisions id = true ↔
      (∃ j k, j < g.snakes.length ∧ k < (g.snakes.getD j dummyS).body.length ∧
        ¬(j = id ∧ k = (g.snakes.getD id dummyS).body.length - 1) ∧
        (g.snakes.getD j dummyS).body.getD k dummyP = head)) ∧
    (g.check_collisions id = Collision.BorderOrSnake ↔
      ((head.x = 1 ∨ head.x = g.width ∨ head.y = 1 ∨ head.y = g.height) ∨
       (∃ j k, j < g.snakes.length ∧ k < (g.snakes.getD j dummyS).body.length ∧
        ¬(j = id ∧ k = (g.snakes.getD id dummyS).body.length - 1) ∧
        (g.snakes.getD j dummyS).body.getD k dummyP = head))) ∧
    (g.check_collisions id = Collision.Food ↔
      (¬((head.x = 1 ∨ head.x = g.width ∨ head.y = 1 ∨ head.y = g.height) ∨
         (∃ j k, j < g.snakes.length ∧ k < (g.snakes.getD j dummyS).body.length ∧
          ¬(j = id ∧ k = (g.snakes.getD id dummyS).body.length - 1) ∧
          (g.snakes.getD j dummyS).body.getD k dummyP = head)) ∧ head = g.food)) ∧
    (g.check_collisions id = Collision.None ↔
      (¬((head.x = 1 ∨ head.x = g.width ∨ head.y = 1 ∨ head.y = g.height) ∨
         (∃ j k, j < g.snakes.length ∧ k < (g.snakes.getD j dummyS).body.length ∧
          ¬(j = id ∧ k = (g.snakes.getD id dummyS).body.length - 1) ∧
          (g.snakes.getD j dummyS).body.getD k dummyP = head)) ∧ head ≠ g.food)) := by
  have hborder : (g.snakes.getD id dummyS)._check_border_collisions g.width g.height = true ↔
      (head.x = 1 ∨ head.x = g.width ∨ head.y = 1 ∨ head.y = g.height) := by
    subst hhead
    simp [Snake._check_border_collisions, Nat.mod_eq_of_lt hw, Nat.mod_eq_of_lt hh, or_assoc]
  have hsnakec : g.check_snake_collisions id = true ↔
      (∃ j k, j < g.snakes.length ∧ k < (g.snakes.getD j dummyS).body.length ∧
        ¬(j = id ∧ k = (g.snakes.getD id dummyS).body.length - 1) ∧
        (g.snakes.getD j dummyS).body.getD k dummyP = head) := by
    subst hhead
    simp only [Game.check_snake_collisions, List.any_eq_true, List.mem_range,
      Bool.and_eq_true, Bool.not_eq_true', Bool.and_eq_false_iff, beq_iff_eq]
    constructor
    · rintro ⟨j, hj, k, hk, hne, hx, hy⟩
      refine ⟨j, k, hj, hk, ?_, point_eq_of _ _ hx hy⟩
      rintro ⟨rfl, rfl⟩
      rcases hne with h | h
      · simp at h
      · simp at h
    · rintro ⟨j, k, hj, hk, hne, heq⟩
      refine ⟨j, hj, k, hk, ?_, by rw [heq], by rw [heq]⟩
      rcases Decidable.em (j = id) with hji | hji
      · right
        rw [beq_eq_false_iff_ne]
        intro hk1
        exact hne ⟨hji, hk1⟩
      · left
        rw [beq_eq_false_iff_ne]
        exact hji
  have hfood : (g.snakes.getD id dummyS)._check_food_collision g.food = true ↔
      head = g.food := by
    subst hhead
    simp only [Snake._check_food_collision]
    exact beq_point_iff _ _
  refine ⟨hborder, hsnakec, ?_, ?_, ?_⟩
  · rw [← hborder, ← hsnakec]
    simp only [Game.check_collisions]
    cases hB : (g.snakes.getD id dummyS)._check_border_collisions g.width g.height <;>
      cases hS : g.check_snake_collisions id <;>
        cases hF : (g.snakes.getD id dummyS)._check_food_collision g.food <;>
          simp [hB, hS, hF]
  · rw [← hborder, ← hsnakec, ← hfood]
    simp only [Game.check_collisions]
    cases hB : (g.snakes.getD id dummyS)._check_border_collisions g.width g.height <;>
      cases hS : g.check_snake_collisions id <;>
        cases hF : (g.snakes.getD id dummyS)._check_food_collision g.food <;>
          simp [hB, hS, hF]
  · rw [← hborder, ← hsnakec]
    have hfood1 : (head ≠ g.food) ↔
        ¬((g.snakes.getD id dummyS)._check_food_collision g.food = true) := by
      rw [hfood]
    rw [hfood1]
    simp only [Game.check_collisions]
    cases hB : (g.snakes.getD id dummyS)._check_border_collisions g.width g.height <;>
      cases hS : g.check_snake_collisions id <;>
        cases hF : (g.snakes.getD id dummyS)._check_food_collision g.food <;>
          simp [hB, hS, hF]

/-- Game used to instantiate claim C6: one snake whose head `(20, 5)` sits on
the right border of the 20×20 board, with the food on the very head cell —
the border collision overrides the food event. -/
def cGC6 : Game :=
  { snakes := [⟨[⟨18, 5⟩, ⟨19, 5⟩, ⟨20, 5⟩], Direction.Right⟩],
    food := ⟨20, 5⟩, width := 20, height := 20, states := [GameState.Playing] }

theorem claim_C6_witness :
    ((cGC6.snakes.getD 0 dummyS).body ≠ [] ∧ cGC6.width < M ∧ cGC6.height < M) ∧
    cGC6.check_collisions 0 = Collision.BorderOrSnake ∧
    ((20 : Nat) = 1 ∨ (20 : Nat) = cGC6.width ∨ (5 : Nat) = 1 ∨ (5 : Nat) = cGC6.height) := by
  refine ⟨⟨by decide, by decide, by decide⟩, ?_, by decide⟩
  have h := (claim_C6 cGC6 0 (by decide) (by decide) (by decide) ⟨20, 5⟩ (by decide)).2.2.1
  exact h.mpr (Or.inl (by decide))

/-! ### Claims C4 and C8 -/

lemma getD_set_or (l : List γ) (idx i : Nat) (v d : γ) :
    (l.set idx v).getD i d = l.getD i d ∨ (l.set idx v).getD i d = v := by
  rcases Decidable.em (idx = i) with rfl | hne
  · cases hq : l[idx]? with
    | none => left; simp [List.getD, List.getElem?_set_self', hq]
    | some a => right; simp [List.getD, List.getElem?_set_self', hq]
  · left
    simp [List.getD, List.getElem?_set_ne hne]

lemma getD_set_self (l : List γ) (idx : Nat) (v d : γ) (h : idx < l.length) :
    (l.set idx v).getD idx d = v := by
  simp [List.getD, List.getElem?_set_self', List.getElem?_eq_getElem h]

lemma play_turn_step_states {old : List (List Point)} {st : Game × List Point} {id : Nat}
    {g1 : Game} {rng1 : List Point} (h : Game.play_turn_step old st id = some (g1, rng1)) :
    ∀ i d, g1.states.getD i d = st.1.states.getD i d ∨ g1.states.getD i d = GameState.Lost := by
  obtain ⟨g0, rng0⟩ := st
  simp only [Game.play_turn_step] at h
  split at h
  · simp only [Option.some.injEq, Prod.mk.injEq] at h
    rcases h with ⟨rfl, _⟩
    intro i d
    exact getD_set_or g0.states id i GameState.Lost d
  · have hp := create_food_parts rng0 _ g1 rng1 h
    intro i d
    left
    rw [hp.2.1]
  · simp only [Option.some.injEq, Prod.mk.injEq] at h
    rcases h with ⟨rfl, _⟩
    intro i d
    exact Or.inl rfl

lemma foldlM_play_states :
    ∀ (l : List Nat) (old : List (List Point)) (st : Game × List Point) (out : Game × List Point),
      List.foldlM (Game.play_turn_step old) st l = some out →
      ∀ i d, out.1.states.getD i d = st.1.states.getD i d ∨
        out.1.states.getD i d = GameState.Lost := by
  intro l
  induction l with
  | nil =>
    intro old st out h
    simp only [List.foldlM_nil, Option.pure_def, Option.some.injEq] at h
    subst h
    intro i d
    exact Or.inl rfl
  | cons x xs ih =>
    intro old st out h
    simp only [List.foldlM_cons] at h
    cases hs : Game.play_turn_step old st x with
    | none => rw [hs] at h; exact absurd h (by simp)
    | some st1 =>
      rw [hs] at h
      simp only [Option.bind_some, Option.bind_eq_bind] at h
      obtain ⟨g1, rng1⟩ := st1
      intro i d
      rcases ih old (g1, rng1) out h i d with h1 | h1
      · rcases play_turn_step_states hs i d with h2 | h2
        · exact Or.inl (h1.trans h2)
        · exact Or.inr (h1.trans h2)
      · exact Or.inr h1

/-- Claim C4, amended: a turn step removes no player slot (`snakes` and
`states` keep their lengths and positions), the per-player state only ever
changes *to* `Lost` (never away from it, so no recovery), but a `Lost`
snake's body is NOT frozen: `move_snakes` advances every snake regardless of
its state (see the counterexample). -/
theorem claim_C4 (g : Game) (rng : List Point) (g1 : Game) (rng1 : List Point)
    (h : g.play_turn rng = some (g1, rng1)) :
    g1.snakes.length = g.snakes.length ∧ g1.states.length = g.states.length ∧
    (∀ i d, g1.states.getD i d = g.states.getD i d ∨ g1.states.getD i d = GameState.Lost) ∧
    (∀ i d, g.states.getD i d = GameState.Lost → g1.states.getD i d = GameState.Lost) := by
  have hlen := play_turn_lengths h
  have hst : ∀ i d, g1.states.getD i d = g.states.getD i d ∨
      g1.states.getD i d = GameState.Lost := by
    unfold Game.play_turn at h
    intro i d
    exact foldlM_play_states _ _ _ _ h i d
  refine ⟨hlen.1, hlen.2, hst, ?_⟩
  intro i d hLost
  rcases hst i d with h1 | h1
  · rw [h1, hLost]
  · exact h1

/-- One-player game whose only snake has already collided (`Lost`): body
`[(5,5),(6,5),(7,5)]`, heading Right, nowhere near border or food. -/
def cGC4 : Game :=
  { snakes := [⟨[⟨5, 5⟩, ⟨6, 5⟩, ⟨7, 5⟩], Direction.Right⟩],
    food := ⟨2, 2⟩, width := 20, height := 20, states := [GameState.Lost] }

/-- Result of one `play_turn` on `cGC4`. -/
def cGC4out : Game := ((cGC4.play_turn []).getD (cGC4, [])).1

/-- The claim "the Lost snake's body is unchanged (frozen) by subsequent
`play_turn` calls" is false: the single snake of `cGC4` is `Lost`, yet one
turn moves its body from `[(5,5),(6,5),(7,5)]` to `[(6,5),(7,5),(8,5)]`
(`move_snakes` has no state check). -/
theorem claim_C4_counterexample :
    cGC4.states = [GameState.Lost] ∧
    cGC4.play_turn [] = some (cGC4out, []) ∧
    (cGC4.snakes.getD 0 dummyS).body = [⟨5, 5⟩, ⟨6, 5⟩, ⟨7, 5⟩] ∧
    (cGC4out.snakes.getD 0 dummyS).body = [⟨6, 5⟩, ⟨7, 5⟩, ⟨8, 5⟩] ∧
    (cGC4out.snakes.getD 0 dummyS).body ≠ (cGC4.snakes.getD 0 dummyS).body := by
  refine ⟨by decide, by decide, by decide, by decide, by decide⟩

theorem claim_C4_witness :
    cGC4.play_turn [] = some (cGC4out, []) ∧
      cGC4out.states.getD 0 GameState.Ready = GameState.Lost :=
  ⟨by decide, (claim_C4 cGC4 [] cGC4out [] (by decide)).2.2.2 0 GameState.Ready (by decide)⟩

lemma play_turn_step_food {old : List (List Point)} {g : Game} {rng : List Point} {id : Nat}
    {g1 : Game} {rng1 : List Point} (hid : id < g.snakes.length)
    (hc : g.check_collisions id = Collision.Food)
    (h : Game.play_turn_step old (g, rng) id = some (g1, rng1)) :
    (g1.snakes.getD id dummyS).body = old.getD id [] ++ [g.food] := by
  simp only [Game.play_turn_step] at h
  split at h
  · rename_i heq
    rw [hc] at heq
    exact Collision.noConfusion heq
  · have hp := create_food_parts rng _ g1 rng1 h
    rw [hp.1]
    rw [getD_set_self g.snakes id _ dummyS hid]
    simp [Snake._grow]
  · rename_i heq
    rw [hc] at heq
    exact Collision.noConfusion heq

/-- Claim C8: a turn that resolves as a food collision restores the pre-move
body and appends exactly one segment equal to the consumed food's position,
so the length grows by one; instantiated end-to-end for a single-snake
`play_turn`. -/
theorem claim_C8 :
    (∀ (old : List (List Point)) (g : Game) (rng : List Point) (id : Nat)
       (g1 : Game) (rng1 : List Point),
       id < g.snakes.length → g.check_collisions id = Collision.Food →
       Game.play_turn_step old (g, rng) id = some (g1, rng1) →
       (g1.snakes.getD id dummyS).body = old.getD id [] ++ [g.food] ∧
       (g1.snakes.getD id dummyS).body.length = (old.getD id []).length + 1) ∧
    (∀ (g : Game) (rng : List Point) (g1 : Game) (rng1 : List Point),
       g.snakes.length = 1 →
       g.move_snakes.check_collisions 0 = Collision.Food →
       g.play_turn rng = some (g1, rng1) →
       (g1.snakes.getD 0 dummyS).body = (g.snakes.getD 0 dummyS).body ++ [g.food] ∧
       (g1.snakes.getD 0 dummyS).body.length = (g.snakes.getD 0 dummyS).body.length + 1) := by
  constructor
  · intro old g rng id g1 rng1 hid hc h
    have hbody := play_turn_step_food hid hc h
    refine ⟨hbody, ?_⟩
    rw [hbody]
    simp
  · intro g rng g1 rng1 hone hc h
    simp only [Game.play_turn] at h
    have hr : List.range g.move_snakes.snakes.length = [0] := by
      show List.range (g.snakes.map Snake._move).length = [0]
      rw [List.length_map, hone]
      rfl
    rw [hr] at h
    simp only [List.foldlM_cons, List.foldlM_nil] at h
    cases hs : Game.play_turn_step g.snakes_to_vec (g.move_snakes, rng) 0 with
    | none => rw [hs] at h; exact absurd h (by simp)
    | some st1 =>
      rw [hs] at h
      obtain ⟨gx, rx⟩ := st1
      simp only [Option.bind_some, Option.bind_eq_bind, Option.pure_def,
        Option.some.injEq, Prod.mk.injEq] at h
      rcases h with ⟨rfl, rfl⟩
      have hid0 : (0 : Nat) < g.move_snakes.snakes.length := by
        show (0 : Nat) < (g.snakes.map Snake._move).length
        rw [List.length_map, hone]
        omega
      have hbody := play_turn_step_food hid0 hc hs
      have hfood : g.move_snakes.food = g.food := rfl
      have holdg : g.snakes_to_vec.getD 0 [] = (g.snakes.getD 0 dummyS).body := by
        show (g.snakes.map Snake.body).getD 0 [] = _
        cases hsn : g.snakes with
        | nil => rw [hsn] at hone; simp at hone
        | cons s rest => rfl
      rw [hfood, holdg] at hbody
      refine ⟨hbody, ?_⟩
      rw [hbody]
      simp

/-- One-player game about to eat: after moving right the head lands exactly
on the food `(12,5)`. -/
def cGC8 : Game :=
  { snakes := [⟨[⟨9, 5⟩, ⟨10, 5⟩, ⟨11, 5⟩], Direction.Right⟩],
    food := ⟨12, 5⟩, width := 20, height := 20, states := [GameState.Playing] }

/-- Result of the food-eating turn on `cGC8` (fresh food drawn at `(2,2)`). -/
def cGC8out : Game := ((cGC8.play_turn [⟨2, 2⟩]).getD (cGC8, [])).1

theorem claim_C8_witness :
    cGC8.snakes.length = 1 ∧
    cGC8.move_snakes.check_collisions 0 = Collision.Food ∧
    cGC8.play_turn [⟨2, 2⟩] = some (cGC8out, []) ∧
    (cGC8out.snakes.getD 0 dummyS).body = [⟨9, 5⟩, ⟨10, 5⟩, ⟨11, 5⟩, ⟨12, 5⟩] ∧
    (cGC8out.snakes.getD 0 dummyS).body.length = (cGC8.snakes.getD 0 dummyS).body.length + 1 :=
  ⟨by decide, by decide, by decide, by decide,
   (claim_C8.2 cGC8 [⟨2, 2⟩] cGC8out [] (by decide) (by decide) (by decide)).2⟩

example : (Snake.init 0 2 20 20).body = [⟨9, 5⟩, ⟨10, 5⟩, ⟨11, 5⟩] := by decide

example :
    (Snake._move { body := [⟨9, 5⟩, ⟨10, 5⟩, ⟨11, 5⟩], direction := Direction.Right }).body
      = [⟨10, 5⟩, ⟨11, 5⟩, ⟨12, 5⟩] := by decide
